import Mathlib

/-!
# URL shortener: short-code resolution and caching path

Shallow embedding of the core resolution subsystem of the url-shortener
repository (Go): the URL store repository (`internal/infrastructure/database/
repositories/url.go`), the cache adapter (`CacheURL` / `GetCachedURL` /
`InvalidateURL`), and the URL service (`internal/core/services/url.go`)
together with the redirect handler (`internal/api/handlers/url.go`).

Modelling choices:
- Go `time.Time` values are modelled as `Nat` instants; `time.Now()` becomes
  an explicit `now : Nat` parameter of each operation that reads the clock.
- Go strings are modelled as Lean `String`s, except for the password-hashing
  functions where the byte-level view matters: there a plaintext password is
  a `ByteStr` (a list of bytes), matching Go's `%x` formatting which hex-dumps
  the bytes of the string.
- The database is a list of `ShortURL` rows; GORM queries become list
  searches translated clause by clause from the SQL in the repository file.
- The Redis cache is an association list from short code to either a stored
  entry or an injected transport fault (so that behaviour under cache errors
  can be stated).
-/

namespace UrlShortener

/-! ## Password hashing (`hashPassword` / `checkPassword` in services/url.go)

Go: `hashPassword` returns `fmt.Sprintf("%x", password)` — the lowercase hex
dump of the bytes of the password string — and `checkPassword` recomputes the
hex dump of the candidate and compares strings. -/

/-- The bytes of a Go string. -/
abbrev ByteStr := List (Fin 256)

/-- Lowercase hex digit for a nibble, as produced by Go's percent-x verb:
0-9 then a-f. -/
def hexDigitChar (n : Nat) : Char :=
  if n < 10 then Char.ofNat (48 + n) else Char.ofNat (87 + n)

/-- Two-digit lowercase hex dump of one byte. -/
def hexByte (b : Fin 256) : List Char :=
  [hexDigitChar (b.val / 16), hexDigitChar (b.val % 16)]

/-- Hex dump of a byte string, as Go's percent-x verb on a string. -/
def hexEncode : ByteStr → List Char
  | [] => []
  | b :: rest => hexByte b ++ hexEncode rest

/-- `hashPassword` from services/url.go: the hex dump of the password bytes.
(The Go function also returns an error value that is always nil.) -/
def hashPassword (password : ByteStr) : String :=
  String.mk (hexEncode password)

/-- `checkPassword` from services/url.go: recompute the hex dump of the
candidate and compare it with the stored hash string. -/
def checkPassword (password : ByteStr) (hashedPassword : String) : Bool :=
  String.mk (hexEncode password) == hashedPassword

/-! ## Domain model (`internal/core/domain`) -/

/-- `domain.ShortURL` (url.go). Relationship fields (`User`, `Clicks`) and
GORM's soft-delete column are omitted: no modelled code path writes them. -/
structure ShortURL where
  id : Nat
  shortCode : String
  originalURL : String
  userID : Nat
  title : String := ""
  description : String := ""
  password : Option String := none
  expiresAt : Option Nat := none
  isActive : Bool := true
  clickCount : Nat := 0
  createdAt : Nat := 0
  updatedAt : Nat := 0
deriving Repr, DecidableEq

/-- The sentinel errors of `domain/errors.go` reachable from the modelled
paths, plus the ad-hoc generation-exhausted error that
`generateUniqueShortCode` builds with `fmt.Errorf` (carrying the retry
count it formats into the message). -/
inductive DomainError where
  | errShortURLNotFound
  | errURLNotFound
  | errShortCodeExists
  | errInvalidShortCode
  | errUnauthorized
  | errInvalidURL
  | errInvalidRequest
  | genExhausted (retries : Nat)
deriving Repr, DecidableEq

/-- `domain.ClickData` (url.go). -/
structure ClickData where
  ipAddress : String := ""
  userAgent : String := ""
  referer : String := ""
  country : String := ""
  region : String := ""
  city : String := ""
  device : String := ""
  browser : String := ""
  os : String := ""
deriving Repr, DecidableEq

/-- `domain.Click` (click.go): one persisted click row. -/
structure Click where
  shortURLID : Nat
  ipAddress : String := ""
  userAgent : String := ""
  referer : String := ""
  country : String := ""
  region : String := ""
  city : String := ""
  device : String := ""
  browser : String := ""
  os : String := ""
  clickedAt : Nat := 0
deriving Repr, DecidableEq

/-- `domain.UpdateURLRequest` (url.go); its `Validate` method always
returns nil. -/
structure UpdateURLRequest where
  title : Option String := none
  description : Option String := none
  isActive : Option Bool := none
  expiresAt : Option Nat := none
deriving Repr, DecidableEq

/-! ## URL store repository (repositories/url.go)

Each GORM query is translated clause by clause into a search over the list
of rows. -/

/-- The rows of the short_urls table. -/
abbrev Store := List ShortURL

/-- The WHERE clause of `GetActiveByShortCode`:
short_code matches AND is_active AND (expires_at IS NULL OR expires_at > now). -/
def isActiveMatch (now : Nat) (shortCode : String) (u : ShortURL) : Bool :=
  u.shortCode == shortCode && u.isActive &&
    (match u.expiresAt with
     | none => true
     | some t => decide (now < t))

/-- `GetActiveByShortCode`: First row matching the active/unexpired filter;
GORM's record-not-found maps to `domain.ErrShortURLNotFound`. -/
def GetActiveByShortCode (now : Nat) (store : Store) (shortCode : String) :
    Except DomainError ShortURL :=
  match store.find? (isActiveMatch now shortCode) with
  | some u => .ok u
  | none => .error .errShortURLNotFound

/-- `GetByShortCode`: unfiltered lookup by short_code. -/
def GetByShortCode (store : Store) (shortCode : String) :
    Except DomainError ShortURL :=
  match store.find? (fun u => u.shortCode == shortCode) with
  | some u => .ok u
  | none => .error .errShortURLNotFound

/-- `GetByID`: First row by primary key. -/
def GetByID (store : Store) (id : Nat) : Except DomainError ShortURL :=
  match store.find? (fun u => u.id == id) with
  | some u => .ok u
  | none => .error .errShortURLNotFound

/-- `ExistsByShortCode`: COUNT of rows with the code, compared with zero. -/
def ExistsByShortCode (store : Store) (shortCode : String) : Bool :=
  store.any (fun u => u.shortCode == shortCode)

/-- `Update` (GORM Save of a fetched row): replace the row with the same
primary key. -/
def UpdateStore (store : Store) (url : ShortURL) : Store :=
  store.map (fun u => if u.id == url.id then url else u)

/-- `IncrementClickCount`: UPDATE click_count = click_count + 1 WHERE id. -/
def IncrementClickCount (store : Store) (id : Nat) : Store :=
  store.map (fun u =>
    if u.id == id then { u with clickCount := u.clickCount + 1 } else u)

/-- `GetExpiredURLs`: rows WHERE expires_at IS NOT NULL AND expires_at <= now,
LIMIT n. Note the query has no is_active clause. -/
def GetExpiredURLs (now : Nat) (store : Store) (limit : Nat) : List ShortURL :=
  (store.filter (fun u =>
    match u.expiresAt with
    | some t => decide (t ≤ now)
    | none => false)).take limit

/-! ## Resolution cache adapter (cache service, CacheURL / GetCachedURL /
InvalidateURL)

The Redis-backed cache stores, under key url:{code}, a JSON object holding
the destination URL and owner id. We model the key space as an association
list keyed by the short code. A key can also be marked as a fault, standing
for any underlying transport error of the cache backend; `GetCachedURL`
returns a non-nil Go error both on a missing key (redis.Nil) and on a
transport error, and the service only distinguishes nil-error results, so
both map to `none` below. -/

/-- Value stored under one cache key, or an injected transport fault. -/
inductive CacheVal where
  | entry (originalURL : String) (userID : Nat)
  | fault
deriving Repr, DecidableEq

/-- Cache state: association list from short code to stored value. -/
abbrev Cache := List (String × CacheVal)

/-- `GetCachedURL`: `some (url, uid)` exactly when the Go call returns with a
nil error; missing key and transport fault both return a non-nil error. -/
def GetCachedURL (cache : Cache) (shortCode : String) : Option (String × Nat) :=
  match cache.lookup shortCode with
  | some (.entry url uid) => some (url, uid)
  | some .fault => none
  | none => none

/-- `CacheURL`: SET url:{code} to the destination/owner entry (upsert). -/
def CacheURL (cache : Cache) (shortCode originalURL : String) (userID : Nat) :
    Cache :=
  (shortCode, .entry originalURL userID) ::
    cache.filter (fun kv => kv.fst ≠ shortCode)

/-- `InvalidateURL`: DEL url:{code}. -/
def InvalidateURL (cache : Cache) (shortCode : String) : Cache :=
  cache.filter (fun kv => kv.fst ≠ shortCode)

/-! ## URL service (services/url.go) -/

/-- The constant alphabet `shortCodeChars` of services/url.go. -/
def shortCodeChars : String :=
  "abcdefghijklmnopqrstuvwxyzABCDEFGHIJKLMNOPQRSTUVWXYZ0123456789"

/-- `maxRetries` constant of services/url.go. -/
def maxRetries : Nat := 10

/-- `isValidShortCode`: length between 3 and 20, every rune contained in
`shortCodeChars`. (Go measures the length in bytes; since any code containing
a non-ASCII rune is rejected by the alphabet check under both measures, the
character-count model agrees with the byte-count original on every input.) -/
def isValidShortCode (shortCode : String) : Bool :=
  if shortCode.toList.length < 3 || shortCode.toList.length > 20 then false
  else shortCode.toList.all (fun c => shortCodeChars.toList.contains c)

/-- The random-code branch of `generateUniqueShortCode`: at most `fuel`
further attempts, drawing attempt number `attempt` from the stream `draws`
(which stands for the successive outputs of `generateRandomShortCode`).
Returns the outcome together with the number of `ExistsByShortCode` store
checks performed. -/
def tryRandomCodes (store : Store) (draws : Nat → String) :
    Nat → Nat → Except DomainError String × Nat
  | _, 0 => (.error (.genExhausted maxRetries), 0)
  | attempt, fuel + 1 =>
    let code := draws attempt
    if ExistsByShortCode store code then
      let rest := tryRandomCodes store draws (attempt + 1) fuel
      (rest.fst, rest.snd + 1)
    else
      (.ok code, 1)

/-- `generateUniqueShortCode`: custom-alias branch (validate the alias, one
existence check, no retry) or random branch (up to `maxRetries` draws).
Returns the outcome and the number of `ExistsByShortCode` store checks. -/
def generateUniqueShortCode (store : Store) (customAlias : String)
    (draws : Nat → String) : Except DomainError String × Nat :=
  if customAlias ≠ "" then
    if ¬ isValidShortCode customAlias then (.error .errInvalidShortCode, 0)
    else if ExistsByShortCode store customAlias then
      (.error .errShortCodeExists, 1)
    else (.ok customAlias, 1)
  else
    tryRandomCodes store draws 0 maxRetries

/-- `GetOriginalURL`: try the cache; on a nil-error non-empty hit, fetch the
full row from the database and return it if that read succeeds; otherwise
(miss, fault, empty hit, or failed validation read) read the database,
propagate its error, or return the row and write it back to the cache.
Returns the service result together with the cache state after the call
(the store is never written by this path). -/
def GetOriginalURL (now : Nat) (store : Store) (cache : Cache)
    (shortCode : String) : Except DomainError ShortURL × Cache :=
  let fromDb : Except DomainError ShortURL × Cache :=
    match GetActiveByShortCode now store shortCode with
    | .error e => (.error e, cache)
    | .ok u => (.ok u, CacheURL cache shortCode u.originalURL u.userID)
  match GetCachedURL cache shortCode with
  | some (cachedURL, _) =>
    if cachedURL ≠ "" then
      match GetActiveByShortCode now store shortCode with
      | .ok u => (.ok u, cache)
      | .error _ => fromDb
    else
      fromDb
  | none => fromDb

/-- `UpdateURL`: fetch by id, check ownership, apply the patch fields,
stamp updatedAt, save, then refresh the cache entry if the row is active
and invalidate it if not. Returns the result with the new store and cache. -/
def UpdateURL (now : Nat) (store : Store) (cache : Cache) (id userID : Nat)
    (req : UpdateURLRequest) :
    Except DomainError ShortURL × Store × Cache :=
  match GetByID store id with
  | .error e => (.error e, store, cache)
  | .ok u =>
    if u.userID ≠ userID then (.error .errUnauthorized, store, cache)
    else
      let u := { u with
        title := req.title.getD u.title,
        description := req.description.getD u.description,
        isActive := req.isActive.getD u.isActive,
        expiresAt := match req.expiresAt with
          | some t => some t
          | none => u.expiresAt,
        updatedAt := now }
      let store := UpdateStore store u
      if u.isActive then
        (.ok u, store, CacheURL cache u.shortCode u.originalURL u.userID)
      else
        (.ok u, store, InvalidateURL cache u.shortCode)

/-- `ValidatePassword`: unfiltered lookup by code; a row without a password
accepts any supplied password, otherwise compare hex dumps via
`checkPassword`. -/
def ValidatePassword (store : Store) (shortCode : String)
    (password : ByteStr) : Except DomainError Bool :=
  match GetByShortCode store shortCode with
  | .error e => .error e
  | .ok u =>
    match u.password with
    | none => .ok true
    | some hash => .ok (checkPassword password hash)

/-- One repository call observable on the click-recording path, used to
count how many times `RecordClick` touches each collaborator. -/
inductive RepoCall where
  | createClick
  | incrClickCount (id : Nat)
  | cacheUniqueClick
deriving Repr, DecidableEq

/-- `RecordClick`: build the click row, insert it, increment the row's
click_count through `IncrementClickCount`, then best-effort cache the unique
click (the cache result is discarded). Returns the new store and click table
together with the trace of repository calls issued. -/
def RecordClick (now : Nat) (store : Store) (clicks : List Click)
    (shortURL : ShortURL) (clickData : ClickData) :
    Store × List Click × List RepoCall :=
  let click : Click := {
    shortURLID := shortURL.id,
    ipAddress := clickData.ipAddress,
    userAgent := clickData.userAgent,
    referer := clickData.referer,
    country := clickData.country,
    region := clickData.region,
    city := clickData.city,
    device := clickData.device,
    browser := clickData.browser,
    os := clickData.os,
    clickedAt := now }
  let clicks := clicks ++ [click]
  let store := IncrementClickCount store shortURL.id
  (store, clicks, [.createClick, .incrClickCount shortURL.id, .cacheUniqueClick])

/-- The click_count currently stored for row `id` (zero if absent). -/
def clickCountOf (store : Store) (id : Nat) : Nat :=
  match store.find? (fun u => u.id == id) with
  | some u => u.clickCount
  | none => 0

/-! ## Redirect handler (`RedirectURL` in handlers/url.go)

The handler resolves the code through the service, rejects an inactive row
with 410, enforces the password query parameter against `ValidatePassword`
(missing password → 401 Password required, invalid → 401 Invalid password),
records the click best-effort, and redirects with 301. The supplied password
query parameter is modelled at the byte level because it feeds the hashing
functions. -/

/-- Outcome of one redirect request: an HTTP redirect to the destination, or
an error response with its status code and message. -/
inductive RedirectResult where
  | redirect (destination : String)
  | httpError (status : Nat) (message : String)
deriving Repr, DecidableEq

/-- Is the query parameter string empty? (Go compares with the empty
string.) -/
def byteStrEmpty (s : ByteStr) : Bool := s.isEmpty

/-- `RedirectURL` handler: the full resolution pipeline for one request.
Returns the HTTP outcome together with the store, click table and cache
after the request. -/
def RedirectURL (now : Nat) (store : Store) (clicks : List Click)
    (cache : Cache) (shortCode : String) (passwordParam : ByteStr)
    (clickData : ClickData) :
    RedirectResult × Store × List Click × Cache :=
  if shortCode = "" then
    (.httpError 400 "Short code is required", store, clicks, cache)
  else
    match GetOriginalURL now store cache shortCode with
    | (.error e, cache) =>
      -- the handler switches on domain.ErrURLNotFound; any other error
      -- (including the ErrShortURLNotFound the service actually yields)
      -- falls to the 500 default branch
      match e with
      | .errURLNotFound =>
        (.httpError 404 "URL not found", store, clicks, cache)
      | _ =>
        (.httpError 500 "Internal server error", store, clicks, cache)
    | (.ok shortURL, cache) =>
      if shortURL.isActive = false then
        (.httpError 410 "URL is inactive", store, clicks, cache)
      else
        let proceed : RedirectResult × Store × List Click × Cache :=
          let rec' := RecordClick now store clicks shortURL clickData
          (.redirect shortURL.originalURL, rec'.fst, rec'.snd.fst, cache)
        match shortURL.password with
        | none => proceed
        | some _ =>
          if byteStrEmpty passwordParam then
            (.httpError 401 "Password required", store, clicks, cache)
          else
            match ValidatePassword store shortCode passwordParam with
            | .error _ =>
              (.httpError 401 "Invalid password", store, clicks, cache)
            | .ok valid =>
              if valid then proceed
              else (.httpError 401 "Invalid password", store, clicks, cache)

/-! ## System state and the resolution-path operations

For the monotonicity claim about click counts we run sequences of the two
operations that execute on the resolution path — a service resolution
(`GetOriginalURL`, which only rewrites the cache) and a click recording —
over a combined state. -/

/-- Combined state of the store, the click table and the cache. -/
structure SystemState where
  store : Store
  clicks : List Click
  cache : Cache
deriving Repr, DecidableEq

/-- One resolution-path operation. -/
inductive Op where
  | resolve (shortCode : String)
  | record (shortURL : ShortURL) (clickData : ClickData)
deriving Repr

/-- Effect of one operation on the combined state. -/
def stepOp (now : Nat) (st : SystemState) : Op → SystemState
  | .resolve shortCode =>
    { st with cache := (GetOriginalURL now st.store st.cache shortCode).snd }
  | .record shortURL clickData =>
    let r := RecordClick now st.store st.clicks shortURL clickData
    { st with store := r.fst, clicks := r.snd.fst }

/-- Run a sequence of resolution-path operations. -/
def runOps (now : Nat) (st : SystemState) : List Op → SystemState
  | [] => st
  | op :: ops => runOps now (stepOp now st op) ops

/-! ## Sample data for concrete evaluations -/

/-- An active, unexpired row. -/
def sampleActive : ShortURL :=
  { id := 1, shortCode := "abc123", originalURL := "https://example.com",
    userID := 1, expiresAt := some 100 }

/-- An active row whose expiry (10) is already in the past at instant 50. -/
def sampleExpired : ShortURL :=
  { id := 2, shortCode := "exp001", originalURL := "https://old.example.com",
    userID := 1, expiresAt := some 10 }

/-- A deactivated row without expiry. -/
def sampleInactive : ShortURL :=
  { id := 3, shortCode := "inact1", originalURL := "https://off.example.com",
    userID := 1, isActive := false }

/-- A row that is both deactivated and expired. -/
def sampleDeadExpired : ShortURL :=
  { id := 4, shortCode := "dead01", originalURL := "https://gone.example.com",
    userID := 1, expiresAt := some 10, isActive := false }

/-- A row owned by user 7, used to exercise the update path. -/
def ownerRow : ShortURL :=
  { id := 1, shortCode := "abc123", originalURL := "https://o.example.com",
    userID := 7 }

/-- `ownerRow` as `UpdateURL` leaves it after deactivation at instant 60. -/
def ownerRowDeactivated : ShortURL :=
  { ownerRow with isActive := false, updatedAt := 60 }

/-- A secret-protected row: its stored password is the hash of the plaintext
bytes 97 98 99. -/
def secretURL : ShortURL :=
  { id := 8, shortCode := "s3cret", originalURL := "https://s.example.com",
    userID := 3, password := some (hashPassword [97, 98, 99]) }

/-- A store whose rows occupy the first two draws of `sampleDraws`. -/
def twoTakenStore : Store :=
  [{ id := 5, shortCode := "taken0", originalURL := "https://a.example.com",
     userID := 1 },
   { id := 6, shortCode := "taken1", originalURL := "https://b.example.com",
     userID := 1 }]

/-- A deterministic stand-in for the random code stream: the first two draws
collide with `twoTakenStore`, the third is fresh. -/
def sampleDraws : Nat → String
  | 0 => "taken0"
  | 1 => "taken1"
  | _ => "fresh0"

/-! ## Helper lemmas -/

/-- The service result of `GetOriginalURL` is, on every path, exactly the
result of the store read `GetActiveByShortCode`: a cache hit is re-validated
against the store, a cache miss or fault falls back to the store, and a
failed validation read falls through to the same store read. -/
theorem getOriginalURL_fst_eq (now : Nat) (store : Store) (cache : Cache)
    (shortCode : String) :
    (GetOriginalURL now store cache shortCode).fst
      = GetActiveByShortCode now store shortCode := by
  unfold GetOriginalURL
  cases hga : GetActiveByShortCode now store shortCode <;>
    cases hgc : GetCachedURL cache shortCode <;>
      simp [hga]
  all_goals
    rename_i v
    rcases v with ⟨url, uid⟩
    by_cases hurl : url = "" <;> simp [hurl, hga]

/-- Inversion for a successful `GetActiveByShortCode`: the returned row
matches the code, is active, and is unexpired at the query instant. -/
theorem getActive_ok_inv {now : Nat} {store : Store} {shortCode : String}
    {u : ShortURL}
    (h : GetActiveByShortCode now store shortCode = .ok u) :
    u ∈ store ∧ u.shortCode = shortCode ∧ u.isActive = true ∧
      (u.expiresAt = none ∨ ∃ t, u.expiresAt = some t ∧ now < t) := by
  unfold GetActiveByShortCode at h
  cases hf : store.find? (isActiveMatch now shortCode) with
  | none => rw [hf] at h; cases h
  | some v =>
    rw [hf] at h
    cases h
    have hmem := List.mem_of_find?_eq_some hf
    have hp := List.find?_some hf
    unfold isActiveMatch at hp
    simp only [Bool.and_eq_true, beq_iff_eq] at hp
    refine ⟨hmem, hp.1.1, hp.1.2, ?_⟩
    cases he : u.expiresAt with
    | none => exact Or.inl rfl
    | some t =>
      rw [he] at hp
      simp only [decide_eq_true_eq] at hp
      exact Or.inr ⟨t, rfl, hp.2⟩

/-- If every row carrying the code is inactive or already expired, the
filtered lookup reports not-found. -/
theorem getActive_notFound_of_dead (now : Nat) (store : Store)
    (shortCode : String)
    (h : ∀ r ∈ store, r.shortCode = shortCode →
      r.isActive = false ∨ ∃ t, r.expiresAt = some t ∧ t ≤ now) :
    GetActiveByShortCode now store shortCode = .error .errShortURLNotFound := by
  unfold GetActiveByShortCode
  have hnone : store.find? (isActiveMatch now shortCode) = none := by
    rw [List.find?_eq_none]
    intro r hr hmatch
    unfold isActiveMatch at hmatch
    simp only [Bool.and_eq_true, beq_iff_eq] at hmatch
    rcases h r hr hmatch.1.1 with hdead | ⟨t, ht, htle⟩
    · rw [hmatch.1.2] at hdead; cases hdead
    · rw [ht] at hmatch
      simp only [decide_eq_true_eq] at hmatch
      omega
  rw [hnone]

/-- Deleting a key from the cache removes it from every later lookup. -/
theorem lookup_invalidate_none (cache : Cache) (shortCode : String) :
    (InvalidateURL cache shortCode).lookup shortCode = none := by
  unfold InvalidateURL
  induction cache with
  | nil => rfl
  | cons kv rest ih =>
    rcases kv with ⟨k, v⟩
    rw [List.filter_cons]
    by_cases hk : k = shortCode
    · rw [if_neg (by simp [hk])]
      exact ih
    · rw [if_pos (by simp [hk])]
      have hne : (shortCode == k) = false := by
        rw [beq_eq_false_iff_ne]
        exact fun he => hk he.symm
      simp only [List.lookup]
      rw [hne]
      exact ih

/-- Hex digits are distinct for distinct nibbles. -/
theorem hexDigitChar_inj_fin : ∀ a b : Fin 16,
    hexDigitChar a.val = hexDigitChar b.val → a = b := by decide

/-- Hex digit injectivity, stated over bounded naturals. -/
theorem hexDigitChar_inj {m n : Nat} (hm : m < 16) (hn : n < 16)
    (h : hexDigitChar m = hexDigitChar n) : m = n := by
  exact Fin.mk.inj_iff.mp (hexDigitChar_inj_fin ⟨m, hm⟩ ⟨n, hn⟩ h)

/-- The two-digit dump determines the byte. -/
theorem hexByte_inj {a b : Fin 256} (h : hexByte a = hexByte b) : a = b := by
  unfold hexByte at h
  simp only [List.cons.injEq, and_true] at h
  have hdiv : a.val / 16 = b.val / 16 :=
    hexDigitChar_inj (Nat.div_lt_of_lt_mul a.isLt) (Nat.div_lt_of_lt_mul b.isLt)
      h.1
  have hmod : a.val % 16 = b.val % 16 :=
    hexDigitChar_inj (Nat.mod_lt _ (by omega)) (Nat.mod_lt _ (by omega)) h.2
  have hval : a.val = b.val := by
    have ha := Nat.div_add_mod a.val 16
    have hb := Nat.div_add_mod b.val 16
    omega
  exact Fin.ext hval

/-- The hex dump of a byte string determines the byte string. -/
theorem hexEncode_inj : ∀ {p q : ByteStr}, hexEncode p = hexEncode q → p = q := by
  intro p
  induction p with
  | nil =>
    intro q h
    cases q with
    | nil => rfl
    | cons b rest => simp [hexEncode, hexByte] at h
  | cons a pr ih =>
    intro q h
    cases q with
    | nil => simp [hexEncode, hexByte] at h
    | cons b qr =>
      simp only [hexEncode, hexByte, List.cons_append, List.nil_append,
        List.cons.injEq] at h
      obtain ⟨h1, h2, h3⟩ := h
      have hab : a = b := hexByte_inj (by simp [hexByte, h1, h2])
      rw [hab, ih h3]

/-- `checkPassword` against a stored `hashPassword` hash accepts exactly the
original plaintext. -/
theorem checkPassword_iff (q p : ByteStr) :
    checkPassword q (hashPassword p) = true ↔ q = p := by
  unfold checkPassword hashPassword
  rw [beq_iff_eq]
  constructor
  · intro h
    exact hexEncode_inj (by injection h)
  · intro h
    rw [h]

/-! ## The code alphabet

The spec phrases the alias charset as the ranges A-Z, a-z, 0-9; the source
declares the same 62 characters in the order a-z, A-Z, 0-9. The two lists
are proved to contain the same characters. -/

/-- The alias alphabet as the spec writes it, in A-Z a-z 0-9 order. -/
def specAlphabet : List Char :=
  "ABCDEFGHIJKLMNOPQRSTUVWXYZabcdefghijklmnopqrstuvwxyz0123456789".toList

theorem shortCodeChars_sub_spec :
    shortCodeChars.toList.all (fun c => specAlphabet.contains c) = true := by
  decide

theorem spec_sub_shortCodeChars :
    specAlphabet.all (fun c => shortCodeChars.toList.contains c) = true := by
  decide

/-- Membership in the source alphabet coincides with membership in the
spec-ordered alphabet. -/
theorem mem_shortCodeChars_iff (c : Char) :
    c ∈ shortCodeChars.toList ↔ c ∈ specAlphabet := by
  constructor
  · intro h
    have := List.all_eq_true.mp shortCodeChars_sub_spec c h
    exact List.elem_iff.mp this
  · intro h
    have := List.all_eq_true.mp spec_sub_shortCodeChars c h
    exact List.elem_iff.mp this

/-- `isValidShortCode` holds exactly on strings of 3 to 20 characters drawn
from the spec alphabet. -/
theorem isValidShortCode_iff (s : String) :
    isValidShortCode s = true ↔
      3 ≤ s.toList.length ∧ s.toList.length ≤ 20 ∧
        ∀ c ∈ s.toList, c ∈ specAlphabet := by
  unfold isValidShortCode
  by_cases hlen : s.toList.length < 3 ∨ s.toList.length > 20
  · rw [if_pos (by simpa [Bool.or_eq_true, decide_eq_true_eq] using hlen)]
    constructor
    · intro hcontra
      exact (Bool.false_ne_true hcontra).elim
    · rintro ⟨h1, h2, -⟩
      omega
  · push_neg at hlen
    rw [if_neg (by simpa [Bool.or_eq_true, decide_eq_true_eq, not_or] using hlen)]
    rw [List.all_eq_true]
    constructor
    · intro h
      refine ⟨by omega, by omega, fun c hc => ?_⟩
      exact (mem_shortCodeChars_iff c).mp (List.elem_iff.mp (h c hc))
    · intro h c hc
      exact List.elem_iff.mpr ((mem_shortCodeChars_iff c).mpr (h.2.2 c hc))

/-! ## Claim C6 -/

/-- C6: `GetActiveByShortCode` never returns a row whose expiry is in the
past, even when its active flag is still true: a returned row always matches
the requested code, has active = true, and has a null or strictly future
expiry at the query instant. -/
theorem getActive_excludes_expired (now : Nat) (store : Store)
    (shortCode : String) (u : ShortURL)
    (h : GetActiveByShortCode now store shortCode = .ok u) :
    u ∈ store ∧ u.shortCode = shortCode ∧ u.isActive = true ∧
      (u.expiresAt = none ∨ ∃ t, u.expiresAt = some t ∧ now < t) :=
  getActive_ok_inv h

/-- C6 instantiated: an active row expiring at 100 is returned at instant 50
and satisfies the active/unexpired conditions. -/
theorem getActive_excludes_expired_witness :
    GetActiveByShortCode 50 [sampleActive] "abc123" = .ok sampleActive ∧
      (sampleActive ∈ [sampleActive] ∧ sampleActive.shortCode = "abc123" ∧
        sampleActive.isActive = true ∧
        (sampleActive.expiresAt = none ∨
          ∃ t, sampleActive.expiresAt = some t ∧ 50 < t)) :=
  ⟨rfl, getActive_excludes_expired 50 [sampleActive] "abc123"
    sampleActive rfl⟩

/-! ## Claim C8 -/

/-- C8: the outcome of a resolution is independent of the cache state: for
any cache (stale entries or injected faults included) the service result of
`GetOriginalURL` equals the store read `GetActiveByShortCode`, so two
resolutions of the same code against the same store agree whatever the two
caches hold. -/
theorem resolution_cache_independent (now : Nat) (store : Store)
    (cache₁ cache₂ : Cache) (shortCode : String) :
    (GetOriginalURL now store cache₁ shortCode).fst
        = GetActiveByShortCode now store shortCode ∧
      (GetOriginalURL now store cache₁ shortCode).fst
        = (GetOriginalURL now store cache₂ shortCode).fst := by
  refine ⟨getOriginalURL_fst_eq now store cache₁ shortCode, ?_⟩
  rw [getOriginalURL_fst_eq, getOriginalURL_fst_eq]

/-! ## Claim C1 (corrected)

The claim asserts resolution of an inactive or expired record ends in an
ErrGone distinct from the not-found error. The code has no such error on
this path: the repository's filtered query answers GORM record-not-found for
a dead row, which is mapped to the same `domain.ErrShortURLNotFound` that a
missing code yields. -/

/-- C1 counterexample: resolving a stored-but-inactive code and resolving a
stored-but-expired code return exactly the error that resolving an absent
code returns (`errShortURLNotFound`); no distinct gone-style error occurs. -/
theorem resolve_dead_counterexample :
    (GetOriginalURL 50 [sampleInactive] [] "inact1").fst
        = .error .errShortURLNotFound ∧
      (GetOriginalURL 50 [sampleExpired] [] "exp001").fst
        = .error .errShortURLNotFound ∧
      (GetOriginalURL 50 ([] : Store) [] "inact1").fst
        = .error .errShortURLNotFound :=
  ⟨rfl, rfl, rfl⟩

/-- C1 amended: for every short code all of whose stored records are inactive
or expired (including the case of no record at all), resolution terminates
with the single not-found error `errShortURLNotFound`, the same error
returned when no record exists. -/
theorem resolve_dead_record_notFound (now : Nat) (store : Store)
    (cache : Cache) (shortCode : String)
    (h : ∀ r ∈ store, r.shortCode = shortCode →
      r.isActive = false ∨ ∃ t, r.expiresAt = some t ∧ t ≤ now) :
    (GetOriginalURL now store cache shortCode).fst
      = .error .errShortURLNotFound := by
  rw [getOriginalURL_fst_eq]
  exact getActive_notFound_of_dead now store shortCode h

/-- C1 amended, instantiated on an inactive stored record. -/
theorem resolve_dead_record_notFound_witness :
    (∀ r ∈ [sampleInactive], r.shortCode = "inact1" →
        r.isActive = false ∨ ∃ t, r.expiresAt = some t ∧ t ≤ 50) ∧
      (GetOriginalURL 50 [sampleInactive] [] "inact1").fst
        = .error .errShortURLNotFound :=
  ⟨by decide, resolve_dead_record_notFound 50 [sampleInactive] [] "inact1"
    (by decide)⟩

/-! ## Claim C5 (corrected)

The sweep query of `GetExpiredURLs` is
WHERE expires_at IS NOT NULL AND expires_at <= now LIMIT n — it carries no
is_active clause, so already-deactivated rows are returned too. -/

/-- C5 counterexample: a row that is already deactivated (is_active = false)
and expired is returned by `GetExpiredURLs`, contradicting the claim that
only still-active rows are swept. -/
theorem getExpired_counterexample :
    sampleDeadExpired ∈ GetExpiredURLs 100 [sampleDeadExpired] 100 ∧
      sampleDeadExpired.isActive = false := by decide

/-- C5 amended: every row returned by `GetExpiredURLs` is a stored row whose
expiry is non-null and at or before the query instant; the active flag is
not consulted, so deactivated rows are returned as well. -/
theorem getExpired_spec (now : Nat) (store : Store) (limit : Nat)
    (r : ShortURL) (h : r ∈ GetExpiredURLs now store limit) :
    r ∈ store ∧ ∃ t, r.expiresAt = some t ∧ t ≤ now := by
  unfold GetExpiredURLs at h
  have h1 := List.take_subset _ _ h
  have h2 := List.mem_filter.mp h1
  refine ⟨h2.1, ?_⟩
  cases he : r.expiresAt with
  | none => rw [he] at h2; exact absurd h2.2 (by simp)
  | some t =>
    rw [he] at h2
    simp only [decide_eq_true_eq] at h2
    exact ⟨t, rfl, h2.2⟩

/-- C5 amended, instantiated on the deactivated expired row. -/
theorem getExpired_spec_witness :
    sampleDeadExpired ∈ GetExpiredURLs 100 [sampleDeadExpired] 100 ∧
      (sampleDeadExpired ∈ [sampleDeadExpired] ∧
        ∃ t, sampleDeadExpired.expiresAt = some t ∧ t ≤ 100) :=
  ⟨by decide, getExpired_spec 100 [sampleDeadExpired] 100 sampleDeadExpired
    (by decide)⟩

/-! ## Claim C7 -/

/-- C7: for a supplied custom alias the generator validates the 3-to-20
alphanumeric format (the format predicate is characterized against the
spec-ordered alphabet), returns the alias verbatim after a single existence
check when it is free, and hard-fails with the conflict error after a single
existence check — no retry with a different code — when it is taken. -/
theorem custom_alias_generation (store : Store) (alias' : String)
    (draws : Nat → String) (halias : alias' ≠ "") :
    (isValidShortCode alias' = true ↔
        3 ≤ alias'.toList.length ∧ alias'.toList.length ≤ 20 ∧
          ∀ c ∈ alias'.toList, c ∈ specAlphabet) ∧
    (isValidShortCode alias' = false →
        generateUniqueShortCode store alias' draws
          = (.error .errInvalidShortCode, 0)) ∧
    (isValidShortCode alias' = true → ExistsByShortCode store alias' = false →
        generateUniqueShortCode store alias' draws = (.ok alias', 1)) ∧
    (isValidShortCode alias' = true → ExistsByShortCode store alias' = true →
        generateUniqueShortCode store alias' draws
          = (.error .errShortCodeExists, 1)) := by
  refine ⟨isValidShortCode_iff alias', ?_, ?_, ?_⟩
  · intro hinvalid
    unfold generateUniqueShortCode
    rw [if_pos halias, if_pos (by simp [hinvalid])]
  · intro hvalid hfree
    unfold generateUniqueShortCode
    rw [if_pos halias, if_neg (by simp [hvalid]), if_neg (by simp [hfree])]
  · intro hvalid htaken
    unfold generateUniqueShortCode
    rw [if_pos halias, if_neg (by simp [hvalid]), if_pos htaken]

/-- C7 instantiated: the alias "meeting" is well-formed; on an empty store it
is returned verbatim with one existence check, and on a store already holding
it the generator stops with the conflict error after one existence check. -/
theorem custom_alias_generation_witness :
    generateUniqueShortCode [] "meeting" sampleDraws = (.ok "meeting", 1) ∧
      generateUniqueShortCode
          [{ id := 7, shortCode := "meeting",
             originalURL := "https://c.example.com", userID := 2 }]
          "meeting" sampleDraws = (.error .errShortCodeExists, 1) :=
  ⟨(custom_alias_generation [] "meeting" sampleDraws (by decide)).2.2.1
      (by decide) (by decide),
    (custom_alias_generation
        [{ id := 7, shortCode := "meeting",
           originalURL := "https://c.example.com", userID := 2 }]
        "meeting" sampleDraws (by decide)).2.2.2 (by decide) (by decide)⟩

/-! ## Claim C4 -/

/-- If the first k draws from `start` collide and draw k is free while fuel
remains, the retry loop returns draw k after k + 1 existence checks. -/
theorem tryRandomCodes_ok (store : Store) (draws : Nat → String) :
    ∀ (fuel start k : Nat), k < fuel →
      (∀ i, i < k → ExistsByShortCode store (draws (start + i)) = true) →
      ExistsByShortCode store (draws (start + k)) = false →
      tryRandomCodes store draws start fuel
        = (.ok (draws (start + k)), k + 1) := by
  intro fuel
  induction fuel with
  | zero =>
    intro start k hk
    exact absurd hk (Nat.not_lt_zero k)
  | succ f ih =>
    intro start k hk hcol hfree
    cases k with
    | zero =>
      simp only [tryRandomCodes]
      rw [Nat.add_zero] at hfree
      rw [hfree]
      simp
    | succ j =>
      simp only [tryRandomCodes]
      have h0 : ExistsByShortCode store (draws start) = true := by
        simpa using hcol 0 (Nat.succ_pos j)
      rw [h0, if_pos rfl]
      have hrec := ih (start + 1) j (by omega)
        (fun i hi => by
          have heq : start + 1 + i = start + (i + 1) := by omega
          rw [heq]
          exact hcol (i + 1) (by omega))
        (by
          have heq : start + 1 + j = start + (j + 1) := by omega
          rw [heq]
          exact hfree)
      rw [hrec]
      have heq : start + 1 + j = start + (j + 1) := by omega
      rw [heq]

/-- If every draw within the fuel budget collides, the retry loop exhausts
all its attempts, performing exactly `fuel` existence checks. -/
theorem tryRandomCodes_exhaust (store : Store) (draws : Nat → String) :
    ∀ (fuel start : Nat),
      (∀ i, i < fuel → ExistsByShortCode store (draws (start + i)) = true) →
      tryRandomCodes store draws start fuel
        = (.error (.genExhausted maxRetries), fuel) := by
  intro fuel
  induction fuel with
  | zero => intro start h; rfl
  | succ f ih =>
    intro start h
    simp only [tryRandomCodes]
    have h0 : ExistsByShortCode store (draws start) = true := by
      simpa using h 0 (Nat.succ_pos f)
    rw [h0, if_pos rfl]
    rw [ih (start + 1) (fun i hi => by
      have heq : start + 1 + i = start + (i + 1) := by omega
      rw [heq]
      exact h (i + 1) (by omega))]

/-- C4: with no custom alias, when the first N random draws collide with
stored codes, generation succeeds with the first non-colliding draw (after
N + 1 existence checks) whenever N is below the 10-attempt bound, and fails
with the generation-exhausted error after exactly 10 existence checks when
all 10 draws collide. -/
theorem random_generation_retry_bound (store : Store) (draws : Nat → String)
    (N : Nat)
    (hcol : ∀ i, i < N → ExistsByShortCode store (draws i) = true) :
    (N < maxRetries → ExistsByShortCode store (draws N) = false →
      generateUniqueShortCode store "" draws = (.ok (draws N), N + 1)) ∧
    (maxRetries ≤ N →
      generateUniqueShortCode store "" draws
        = (.error (.genExhausted maxRetries), maxRetries)) := by
  constructor
  · intro hN hfree
    unfold generateUniqueShortCode
    rw [if_neg (by simp)]
    have h := tryRandomCodes_ok store draws maxRetries 0 N hN
      (fun i hi => by simpa using hcol i hi) (by simpa using hfree)
    simpa using h
  · intro hN
    unfold generateUniqueShortCode
    rw [if_neg (by simp)]
    exact tryRandomCodes_exhaust store draws maxRetries 0
      (fun i hi => by simpa using hcol i (lt_of_lt_of_le hi hN))

/-- C4 instantiated: with the first two draws colliding and the third fresh,
generation returns the third draw after three existence checks. -/
theorem random_generation_retry_bound_witness :
    (∀ i, i < 2 → ExistsByShortCode twoTakenStore (sampleDraws i) = true) ∧
      generateUniqueShortCode twoTakenStore "" sampleDraws
        = (.ok (sampleDraws 2), 3) :=
  ⟨by decide,
    (random_generation_retry_bound twoTakenStore sampleDraws 2
      (by decide)).1 (by decide) (by decide)⟩

/-! ## Claim C10 -/

/-- C10: the password scheme round-trips — a stored hash accepts exactly the
original plaintext, since the stored form is the (injective) hex dump of the
plaintext bytes — and `ValidatePassword` accepts any supplied password when
the looked-up record has no password set. -/
theorem password_roundtrip (p q supplied : ByteStr) (store : Store)
    (shortCode : String) (u : ShortURL)
    (hu : GetByShortCode store shortCode = .ok u)
    (hnone : u.password = none) :
    checkPassword p (hashPassword p) = true ∧
      (checkPassword q (hashPassword p) = true ↔ q = p) ∧
      ValidatePassword store shortCode supplied = .ok true := by
  refine ⟨(checkPassword_iff p p).mpr rfl, checkPassword_iff q p, ?_⟩
  unfold ValidatePassword
  rw [hu]
  simp [hnone]

/-- C10 instantiated: bytes 97 98 round-trip through the hash, a one-byte
candidate is rejected, and a record without a password accepts an arbitrary
supplied password. -/
theorem password_roundtrip_witness :
    (GetByShortCode [sampleActive] "abc123" = .ok sampleActive ∧
        sampleActive.password = none) ∧
      (checkPassword [97, 98] (hashPassword [97, 98]) = true ∧
        (checkPassword [99] (hashPassword [97, 98]) = true ↔
          ([99] : ByteStr) = [97, 98]) ∧
        ValidatePassword [sampleActive] "abc123" [1, 2] = .ok true) :=
  ⟨⟨rfl, rfl⟩,
    password_roundtrip [97, 98] [99] [1, 2] [sampleActive] "abc123"
      sampleActive rfl rfl⟩

/-! ## Claim C3 -/

/-- C3: on a secret-protected, resolvable record, the redirect pipeline
answers 401 Unauthorized — never the destination — for every supplied secret
other than the original plaintext (including the absent secret), and
redirects to the destination when the matching secret is supplied. -/
theorem secret_protected_resolution (now : Nat) (store : Store)
    (clicks : List Click) (cache : Cache) (shortCode : String)
    (r : ShortURL) (p : ByteStr) (d : ClickData)
    (hcode : shortCode ≠ "")
    (hactive : GetActiveByShortCode now store shortCode = .ok r)
    (hby : GetByShortCode store shortCode = .ok r)
    (hpw : r.password = some (hashPassword p)) (hp : p ≠ []) :
    (∀ q : ByteStr, q ≠ p →
      ∃ msg, (RedirectURL now store clicks cache shortCode q d).fst
        = .httpError 401 msg) ∧
    (RedirectURL now store clicks cache shortCode p d).fst
      = .redirect r.originalURL := by
  have hfst := getOriginalURL_fst_eq now store cache shortCode
  rcases hG : GetOriginalURL now store cache shortCode with ⟨res, c2⟩
  rw [hG, hactive] at hfst
  simp only at hfst
  subst hfst
  have hact := (getActive_ok_inv hactive).2.2.1
  constructor
  · intro q hq
    by_cases hqe : q = []
    · refine ⟨"Password required", ?_⟩
      unfold RedirectURL
      rw [if_neg hcode, hG]
      simp [hact, hpw, byteStrEmpty, hqe]
    · refine ⟨"Invalid password", ?_⟩
      unfold RedirectURL
      rw [if_neg hcode, hG]
      have hvp : ValidatePassword store shortCode q
          = .ok (checkPassword q (hashPassword p)) := by
        unfold ValidatePassword
        rw [hby]
        simp [hpw]
      have hfalse : checkPassword q (hashPassword p) = false := by
        rw [Bool.eq_false_iff]
        intro htrue
        exact hq ((checkPassword_iff q p).mp htrue)
      simp [hact, hpw, byteStrEmpty, hqe, hvp, hfalse]
  · unfold RedirectURL
    rw [if_neg hcode, hG]
    have hvp : ValidatePassword store shortCode p = .ok true := by
      unfold ValidatePassword
      rw [hby]
      simp [hpw, (checkPassword_iff p p).mpr rfl]
    simp [hact, hpw, byteStrEmpty, hp, hvp]

/-- C3 instantiated: the record protected with the hash of bytes 97 98 99
rejects every other supplied secret with a 401 and redirects on the original
plaintext bytes. -/
theorem secret_protected_resolution_witness :
    (∀ q : ByteStr, q ≠ [97, 98, 99] →
        ∃ msg, (RedirectURL 50 [secretURL] [] [] "s3cret" q {}).fst
          = .httpError 401 msg) ∧
      (RedirectURL 50 [secretURL] [] [] "s3cret" [97, 98, 99] {}).fst
        = .redirect secretURL.originalURL :=
  secret_protected_resolution 50 [secretURL] [] [] "s3cret" secretURL
    [97, 98, 99] {} (by decide) rfl rfl rfl (by decide)

/-! ## Claim C2 -/

/-- Inversion for a successful `GetByID`. -/
theorem getByID_ok_inv {store : Store} {id : Nat} {u : ShortURL}
    (h : GetByID store id = .ok u) : u ∈ store ∧ u.id = id := by
  unfold GetByID at h
  cases hf : store.find? (fun v => v.id == id) with
  | none => rw [hf] at h; cases h
  | some v =>
    rw [hf] at h
    cases h
    exact ⟨List.mem_of_find?_eq_some hf, by simpa using List.find?_some hf⟩

/-- C2: when an `UpdateURL` call whose request sets IsActive to false returns
successfully, the returned row's cache entry has been deleted by the time the
call returns, and every subsequent resolution of its short code — at any
later instant and against any cache state whatsoever — fails with the
not-found error rather than returning the destination (the store is the
tie-breaker for the inactive state). The code-uniqueness hypothesis mirrors
the unique index on short_code. -/
theorem update_deactivation_blocks_resolution (now : Nat) (store : Store)
    (cache : Cache) (id userID : Nat) (req : UpdateURLRequest)
    (u : ShortURL) (store' : Store) (cache' : Cache)
    (hreq : req.isActive = some false)
    (hupd : UpdateURL now store cache id userID req = (.ok u, store', cache'))
    (huniq : ∀ r ∈ store, r.shortCode = u.shortCode → r.id = id) :
    cache'.lookup u.shortCode = none ∧
      ∀ (later : Nat) (c : Cache),
        (GetOriginalURL later store' c u.shortCode).fst
          = .error .errShortURLNotFound := by
  unfold UpdateURL at hupd
  cases hbyid : GetByID store id with
  | error e =>
    rw [hbyid] at hupd
    simp at hupd
  | ok u₀ =>
    have hid₀ := (getByID_ok_inv hbyid).2
    rw [hbyid] at hupd
    dsimp only at hupd
    by_cases hown : u₀.userID ≠ userID
    · rw [if_pos hown] at hupd
      simp at hupd
    · rw [if_neg hown] at hupd
      simp only [hreq, Option.getD_some] at hupd
      rw [if_neg (by simp)] at hupd
      simp only [Prod.mk.injEq, Except.ok.injEq] at hupd
      obtain ⟨hu, hs, hc⟩ := hupd
      subst hu
      subst hs
      subst hc
      constructor
      · exact lookup_invalidate_none cache u₀.shortCode
      · intro later c
        rw [getOriginalURL_fst_eq]
        apply getActive_notFound_of_dead
        intro r hr hrcode
        unfold UpdateStore at hr
        obtain ⟨x, hx, hfx⟩ := List.mem_map.mp hr
        by_cases hxid : (x.id == u₀.id) = true
        · rw [if_pos hxid] at hfx
          left
          rw [← hfx]
        · rw [if_neg (by simpa using hxid)] at hfx
          subst hfx
          have hrid := huniq x hx hrcode
          refine absurd ?_ hxid
          have hxeq : x.id = u₀.id := by omega
          simp [hxeq]

/-- C2 instantiated: deactivating the only row with code abc123 empties its
cache entry and makes every later resolution fail. -/
theorem update_deactivation_witness :
    (([] : Cache).lookup ownerRowDeactivated.shortCode = none ∧
      ∀ (later : Nat) (c : Cache),
        (GetOriginalURL later [ownerRowDeactivated] c
            ownerRowDeactivated.shortCode).fst
          = .error .errShortURLNotFound) :=
  update_deactivation_blocks_resolution 60 [ownerRow]
    [("abc123", .entry "https://o.example.com" 7)] 1 7
    { isActive := some false } ownerRowDeactivated [ownerRowDeactivated] []
    rfl rfl (by decide)

/-! ## Claim C9 -/

/-- Searching by id commutes with the click-count bump, which preserves
every row's id. -/
theorem find?_incrementClickCount (store : Store) (id j : Nat) :
    (IncrementClickCount store id).find? (fun u => u.id == j)
      = (store.find? (fun u => u.id == j)).map
          (fun u => if u.id == id
            then { u with clickCount := u.clickCount + 1 } else u) := by
  unfold IncrementClickCount
  induction store with
  | nil => rfl
  | cons a rest ih =>
    have hid : ((if (a.id == id) = true
          then { a with clickCount := a.clickCount + 1 } else a).id == j)
        = (a.id == j) := by
      by_cases h : (a.id == id) = true <;> simp [h]
    rw [List.map_cons, List.find?_cons, List.find?_cons]
    simp only [hid]
    cases ha : (a.id == j) with
    | false => exact ih
    | true => simp

/-- Bumping row id increments its stored click count by exactly one. -/
theorem clickCountOf_increment_self (store : Store) (id : Nat) (r : ShortURL)
    (hfind : store.find? (fun u => u.id == id) = some r) :
    clickCountOf (IncrementClickCount store id) id
      = clickCountOf store id + 1 := by
  unfold clickCountOf
  rw [find?_incrementClickCount, hfind]
  have hr' := List.find?_some hfind
  simp only [beq_iff_eq] at hr'
  simp [Option.map_some, hr']

/-- Bumping row id leaves every other row's click count unchanged. -/
theorem clickCountOf_increment_other (store : Store) (id j : Nat)
    (hne : j ≠ id) :
    clickCountOf (IncrementClickCount store id) j = clickCountOf store j := by
  unfold clickCountOf
  rw [find?_incrementClickCount]
  cases hf : store.find? (fun u => u.id == j) with
  | none => rfl
  | some r =>
    have hr' := List.find?_some hf
    simp only [beq_iff_eq] at hr'
    simp [Option.map_some, hr', hne]

/-- Bumping any row never decreases any stored click count. -/
theorem clickCountOf_increment_le (store : Store) (id j : Nat) :
    clickCountOf store j ≤ clickCountOf (IncrementClickCount store id) j := by
  by_cases h : j = id
  · subst h
    cases hf : store.find? (fun u => u.id == j) with
    | none =>
      unfold clickCountOf
      rw [find?_incrementClickCount, hf]
      exact Nat.le_refl _
    | some r =>
      rw [clickCountOf_increment_self store j r hf]
      exact Nat.le_succ _
  · rw [clickCountOf_increment_other store id j h]

/-- Along any sequence of resolution-path operations the stored click count
of every row is non-decreasing. -/
theorem clickCountOf_monotone_runOps (now j : Nat) :
    ∀ (ops : List Op) (st : SystemState),
      clickCountOf st.store j ≤ clickCountOf (runOps now st ops).store j := by
  intro ops
  induction ops with
  | nil => intro st; exact Nat.le_refl _
  | cons op rest ih =>
    intro st
    refine Nat.le_trans ?_ (ih (stepOp now st op))
    cases op with
    | resolve shortCode => exact Nat.le_refl _
    | record shortURL clickData =>
      exact clickCountOf_increment_le st.store shortURL.id j

/-- C9: a successful `RecordClick` raises the clicked row's stored click
count by exactly one and no other row's, issues exactly one
`IncrementClickCount` repository call and appends exactly one click row; a
resolution never writes the store, and along any sequence of
resolution-path operations every click count is non-decreasing. -/
theorem record_click_accounting (now : Nat) (store : Store)
    (clicks : List Click) (u : ShortURL) (d : ClickData) (r : ShortURL)
    (hfind : store.find? (fun v => v.id == u.id) = some r) :
    clickCountOf (RecordClick now store clicks u d).fst u.id
        = clickCountOf store u.id + 1 ∧
      (∀ j, j ≠ u.id →
        clickCountOf (RecordClick now store clicks u d).fst j
          = clickCountOf store j) ∧
      (RecordClick now store clicks u d).snd.snd.countP
          (fun c => match c with | .incrClickCount _ => true | _ => false)
        = 1 ∧
      (RecordClick now store clicks u d).snd.fst.length = clicks.length + 1 ∧
      (∀ (shortCode : String) (st : SystemState),
        (stepOp now st (.resolve shortCode)).store = st.store) ∧
      (∀ (ops : List Op) (st : SystemState) (j : Nat),
        clickCountOf st.store j ≤ clickCountOf (runOps now st ops).store j) := by
  refine ⟨clickCountOf_increment_self store u.id r hfind,
    fun j hj => clickCountOf_increment_other store u.id j hj,
    rfl, ?_, fun shortCode st => rfl,
    fun ops st j => clickCountOf_monotone_runOps now j ops st⟩
  simp [RecordClick]

/-- C9 instantiated: one recorded click on the sample row bumps its count
from 0 to 1. -/
theorem record_click_accounting_witness :
    List.find? (fun v => v.id == sampleActive.id) [sampleActive]
        = some sampleActive ∧
      clickCountOf (RecordClick 50 [sampleActive] [] sampleActive {}).fst
          sampleActive.id
        = clickCountOf [sampleActive] sampleActive.id + 1 :=
  ⟨by decide,
    (record_click_accounting 50 [sampleActive] [] sampleActive {}
      sampleActive (by decide)).1⟩

end UrlShortener
